import Mathlib

/-!
Verification of the load-scheduling and metrics-evaluation engine of the
local-grafana-stack repository: the k6 scenario scripts under `k6/`, the
`run-k6.sh` runner, and the schedule/metric/threshold semantics they rely on.

Times are modelled as rationals (seconds), VU targets as naturals, and the
fallible queries (rate of an empty register, percentile of an empty Trend)
as `Option`.
-/

/-- A declarative load stage as written in the `options.stages` arrays of the
k6 scripts: a ramp duration in seconds and a target VU count. -/
structure Stage where
  duration : ℚ
  target : ℕ
deriving DecidableEq

/-- Modelled from the spec: the Schedule Engine's instantaneous VU target as a
rational, before rounding.  Inside a stage the target ramps linearly from the
previous stage's target (initially `start`) to the stage's own target; past
the end of all stages it holds the last target. -/
def vuTargetQ (start : ℕ) : List Stage → ℚ → ℚ
  | [], _ => start
  | s :: rest, t =>
      if t < s.duration then (start : ℚ) + ((s.target : ℚ) - start) * t / s.duration
      else vuTargetQ s.target rest (t - s.duration)

/-- Modelled from the spec: the Schedule Engine's computed VU target, rounded
to the nearest integer and clamped to be non-negative. -/
def vuTarget (start : ℕ) (stages : List Stage) (t : ℚ) : ℤ :=
  max 0 (round (vuTargetQ start stages t))

/-- Total run time: the sum of all stage durations. -/
def totalDuration (stages : List Stage) : ℚ :=
  (stages.map Stage.duration).sum

/-- The absolute start time of stage `i`: the sum of the durations of the
stages before it. -/
def stageStart (stages : List Stage) (i : ℕ) : ℚ :=
  ((stages.take i).map Stage.duration).sum

/-- The duration of stage `i` (0 past the end of the list). -/
def stageDuration (stages : List Stage) (i : ℕ) : ℚ :=
  (stages.getD i ⟨0, 0⟩).duration

/-- The target of stage `i` (0 past the end of the list). -/
def stageTarget (stages : List Stage) (i : ℕ) : ℕ :=
  (stages.getD i ⟨0, 0⟩).target

/-- The target the ramp of stage `i` starts from: the preceding stage's
target, or the engine's starting VU count for the first stage. -/
def prevTarget (start : ℕ) (stages : List Stage) : ℕ → ℕ
  | 0 => start
  | j + 1 => stageTarget stages j

/-- The stage list of the spike-test scenario (`k6/spike-test.js`). -/
def spikeStages : List Stage :=
  [⟨30, 10⟩, ⟨10, 200⟩, ⟨60, 200⟩, ⟨10, 10⟩, ⟨30, 10⟩, ⟨10, 300⟩, ⟨30, 300⟩, ⟨10, 0⟩]

/-- Modelled from the spec: a Rate register, tracking the fraction of boolean
observations that were true over the total number of observations. -/
structure RateReg where
  trues : ℕ
  total : ℕ
deriving DecidableEq

/-- A freshly created Rate register with no observations. -/
def RateReg.empty : RateReg := ⟨0, 0⟩

/-- `add(bool)` on a Rate register. -/
def RateReg.add (r : RateReg) (b : Bool) : RateReg :=
  ⟨r.trues + (if b then 1 else 0), r.total + 1⟩

/-- Modelled from the spec: the rate query; `none` models the undefined/NaN
value of a register with no observations (a query, never a crash). -/
def RateReg.rate (r : RateReg) : Option ℚ :=
  if r.total = 0 then none else some ((r.trues : ℚ) / r.total)

/-- Feed a whole list of boolean observations into a Rate register. -/
def RateReg.addAll (r : RateReg) (bs : List Bool) : RateReg :=
  bs.foldl RateReg.add r

/-- Modelled from the spec: a percentile query over an already sorted list of
Trend samples, with linear interpolation between adjacent ranks.  The rank
position of percentile `p` over `n` samples is `p / 100 * (n - 1)`. -/
def percentileOfSorted (s : List ℚ) (p : ℚ) : ℚ :=
  let pos : ℚ := p / 100 * ((s.length : ℚ) - 1)
  let j : ℕ := (⌊pos⌋).toNat
  if j + 1 < s.length then
    s.getD j 0 + (pos - (⌊pos⌋ : ℚ)) * (s.getD (j + 1) 0 - s.getD j 0)
  else s.getD (s.length - 1) 0

/-- Modelled from the spec: the percentile query of a Trend register holding
the multiset of samples `samples`; `none` on an empty register. -/
def trendPercentile (samples : List ℚ) (p : ℚ) : Option ℚ :=
  if samples.isEmpty then none
  else some (percentileOfSorted (List.insertionSort (· ≤ ·) samples) p)

/-- Modelled from the spec: the mean query of a Trend register; `none` on an
empty register. -/
def trendMean (samples : List ℚ) : Option ℚ :=
  if samples.isEmpty then none else some (samples.sum / samples.length)

/-- A comparison operator of a threshold expression. -/
inductive CmpOp where
  | lt
  | le
  | gt
  | ge
deriving DecidableEq

/-- Modelled from the spec: compare a computed aggregate `v` against the
literal bound of a threshold using the specified operator. -/
def CmpOp.holds : CmpOp → ℚ → ℚ → Bool
  | .lt, v, bound => decide (v < bound)
  | .le, v, bound => decide (v ≤ bound)
  | .gt, v, bound => decide (bound < v)
  | .ge, v, bound => decide (bound ≤ v)

/-- Modelled from the spec: the threshold expression `p(95)<500` of the
basic-load scenario, evaluated over a Trend register's samples; `none` when
the register is empty. -/
def thresholdP95lt500 (samples : List ℚ) : Option Bool :=
  (trendPercentile samples 95).map (fun v => CmpOp.holds .lt v 500)

/-- An evaluated threshold: its operator, literal bound and the aggregate
computed from the final Metric Register state. -/
structure ThresholdCheck where
  op : CmpOp
  bound : ℚ
  value : ℚ

/-- A single threshold passes when its aggregate satisfies its comparison. -/
def ThresholdCheck.passes (tc : ThresholdCheck) : Bool :=
  CmpOp.holds tc.op tc.value tc.bound

/-- Modelled from the spec: the overall verdict is PASS iff every threshold's
computed aggregate satisfies its comparison. -/
def overallVerdict (ts : List ThresholdCheck) : Bool :=
  ts.all ThresholdCheck.passes

/-- Modelled from the spec: the k6 process exit status, 0 on overall pass and
non-zero on threshold failure. -/
def k6ExitStatus (ts : List ThresholdCheck) : ℕ :=
  if overallVerdict ts then 0 else 99

/-- The test registry of `run-k6.sh` (the `TESTS` array). -/
def knownTests : List String :=
  ["basic-load", "stress-test", "spike-test", "soak-test", "error-test", "profiling-test"]

/-- What a run of `run-k6.sh` produces: the process exit code, the list of
test names printed by `list_tests` on a resolution failure, and whether the
k6 container (the load generator) was ever invoked. -/
structure RunnerOutcome where
  exitCode : ℕ
  notFoundListed : List String
  k6Invoked : Bool
deriving DecidableEq

/-- The runner logic of `run-k6.sh`: resolve `<name>.js` among the script
files, error out (listing the registry) when absent, error out when Docker is
down, otherwise run k6 and propagate its exit code. -/
def runRunner (scriptFiles : List String) (testName : String) (dockerUp : Bool)
    (k6Code : ℕ) : RunnerOutcome :=
  if (testName ++ ".js") ∈ scriptFiles then
    if dockerUp then ⟨k6Code, [], true⟩
    else ⟨1, [], false⟩
  else ⟨1, knownTests, false⟩

/-- The base URL resolution shared by every scenario script:
`__ENV.BASE_URL || http://rust-app:8080` (the JS `||` falls back on an empty
string as well as on an unset variable). -/
def resolveBaseURL (env : Option String) : String :=
  match env with
  | some s => if s = "" then "http://rust-app:8080" else s
  | none => "http://rust-app:8080"

/-- The request URLs of the spike-test scenario. -/
def spikeTestURLs (base : String) : List String := [base ++ "/health"]

/-- The request URLs of one soak-test batch, for a drawn user id `uid`. -/
def soakTestURLs (base : String) (uid : ℕ) : List String :=
  [base ++ "/health", base ++ "/user/" ++ toString uid]

/-- The candidate request URLs of a profiling-test iteration. -/
def profilingTestURLs (base : String) (uid : ℕ) : List String :=
  [base ++ "/health", base ++ "/user/" ++ toString uid,
   base ++ "/simulate/slow", base ++ "/calculate/add"]

/-- The candidate request URLs of a basic-load iteration. -/
def basicLoadURLs (base : String) (uid : ℕ) : List String :=
  [base ++ "/health", base ++ "/user/" ++ toString uid,
   base ++ "/calculate/add", base ++ "/calculate/divide"]

/-- The candidate request URLs of a stress-test iteration. -/
def stressTestURLs (base : String) (uid : ℕ) : List String :=
  [base ++ "/health", base ++ "/user/" ++ toString uid]

/-- The candidate request URLs of an error-test iteration. -/
def errorTestURLs (base : String) : List String :=
  [base ++ "/health", base ++ "/calculate/add",
   base ++ "/calculate/divide", base ++ "/simulate/error"]

/-- Every request URL any scenario can construct from a base URL. -/
def allScenarioURLs (base : String) (uid : ℕ) : List String :=
  spikeTestURLs base ++ soakTestURLs base uid ++ profilingTestURLs base uid ++
    basicLoadURLs base uid ++ stressTestURLs base uid ++ errorTestURLs base

/-- An HTTP response as far as the checks observe it. -/
structure HttpResponse where
  status : ℤ
  body : String

/-- The basic-load check `status is 200 or 400`. -/
def checkStatus200or400 (r : HttpResponse) : Bool :=
  decide (r.status = 200) || decide (r.status = 400)

/-- The basic-load check `response has body`. -/
def checkHasBody (r : HttpResponse) : Bool :=
  decide (0 < r.body.length)

/-- `check(response, ...)` of the basic-load scenario: true iff every named
check passes. -/
def basicLoadSuccess (r : HttpResponse) : Bool :=
  checkStatus200or400 r && checkHasBody r

/-- The metric registers of the basic-load scenario. -/
structure BasicLoadMetrics where
  requestDuration : List ℚ
  requests : ℕ
  errors : RateReg

/-- One basic-load iteration from the point the response arrives: record the
elapsed duration into the Trend, bump the request Counter, run the checks and
tally their outcome into the `errors` Rate, then sleep
`Math.random() * 2 + 0.5` seconds.  Returns the updated registers and the
sleep length. -/
def basicLoadIteration (m : BasicLoadMetrics) (r : HttpResponse) (dur : ℚ)
    (rand : ℚ) : BasicLoadMetrics × ℚ :=
  let m1 : BasicLoadMetrics := { m with requestDuration := m.requestDuration ++ [dur] }
  let m2 : BasicLoadMetrics := { m1 with requests := m1.requests + 1 }
  let m3 : BasicLoadMetrics :=
    if basicLoadSuccess r then { m2 with errors := m2.errors.add false }
    else { m2 with errors := m2.errors.add true }
  (m3, rand * 2 + 1 / 2)

/-- The divisor field `b` of the basic-load divide request:
`Math.floor(Math.random() * 10) + 1`. -/
def divideDivisor (rand : ℚ) : ℤ := ⌊rand * 10⌋ + 1

/-- A request definition of the error-test scenario. -/
structure ErrorTestRequest where
  url : String
  isPost : Bool
  shouldError : Bool
deriving DecidableEq

/-- The four request definitions of the error-test scenario. -/
def errorTestRequests (base : String) : List ErrorTestRequest :=
  [⟨base ++ "/health", false, false⟩,
   ⟨base ++ "/calculate/add", true, false⟩,
   ⟨base ++ "/calculate/divide", true, true⟩,
   ⟨base ++ "/simulate/error", false, true⟩]

/-- One error-test iteration from the point the response arrives, for the
uniformly drawn request index `idx`: the increment applied to the
`intentional_errors` Counter and the outcome of the check that runs. -/
def errorTestIteration (base : String) (idx : ℕ) (r : HttpResponse) : ℕ × Bool :=
  let req := (errorTestRequests base).getD idx ⟨"", false, false⟩
  if req.shouldError then (1, decide (400 ≤ r.status))
  else (0, decide (r.status = 200))

theorem stageStart_nonneg (stages : List Stage)
    (hpos : ∀ s ∈ stages, 0 < s.duration) (i : ℕ) : 0 ≤ stageStart stages i := by
  refine List.sum_nonneg ?_
  intro x hx
  rcases List.mem_map.mp hx with ⟨s, hs, rfl⟩
  exact le_of_lt (hpos s (List.mem_of_mem_take hs))

theorem totalDuration_nonneg (stages : List Stage)
    (hpos : ∀ s ∈ stages, 0 < s.duration) : 0 ≤ totalDuration stages := by
  refine List.sum_nonneg ?_
  intro x hx
  rcases List.mem_map.mp hx with ⟨s, hs, rfl⟩
  exact le_of_lt (hpos s hs)

theorem prevTarget_cons (start : ℕ) (s : Stage) (rest : List Stage) (j : ℕ) :
    prevTarget start (s :: rest) (j + 1) = prevTarget s.target rest j := by
  cases j with
  | zero => simp [prevTarget, stageTarget]
  | succ k => simp [prevTarget, stageTarget]

theorem vuTargetQ_interp (stages : List Stage) (start : ℕ)
    (hpos : ∀ s ∈ stages, 0 < s.duration) (i : ℕ) (hi : i < stages.length)
    (t : ℚ) (h1 : stageStart stages i ≤ t) (h2 : t < stageStart stages (i + 1)) :
    vuTargetQ start stages t =
      (prevTarget start stages i : ℚ) +
        ((stageTarget stages i : ℚ) - (prevTarget start stages i : ℚ)) *
          (t - stageStart stages i) / stageDuration stages i := by
  induction stages generalizing start i t with
  | nil => simp at hi
  | cons s rest ih =>
      cases i with
      | zero =>
          have hst1 : stageStart (s :: rest) 1 = s.duration := by
            simp [stageStart]
          rw [hst1] at h2
          rw [vuTargetQ, if_pos h2]
          simp [prevTarget, stageTarget, stageDuration, stageStart]
      | succ j =>
          have hrest : ∀ x ∈ rest, 0 < x.duration :=
            fun x hx => hpos x (List.mem_cons_of_mem s hx)
          have hst : stageStart (s :: rest) (j + 1) = s.duration + stageStart rest j := by
            simp [stageStart]
          have hst2 : stageStart (s :: rest) (j + 2) = s.duration + stageStart rest (j + 1) := by
            simp [stageStart]
          have hnn : 0 ≤ stageStart rest j := stageStart_nonneg rest hrest j
          rw [hst] at h1
          rw [hst2] at h2
          rw [vuTargetQ, if_neg (by linarith)]
          have hj : j < rest.length := by simpa using hi
          have e := ih s.target hrest j hj (t - s.duration) (by linarith) (by linarith)
          rw [e, prevTarget_cons]
          have e1 : stageTarget (s :: rest) (j + 1) = stageTarget rest j := by
            simp [stageTarget]
          have e2 : stageDuration (s :: rest) (j + 1) = stageDuration rest j := by
            simp [stageDuration]
          rw [e1, e2, hst]
          ring_nf

theorem vuTargetQ_zero (start : ℕ) (stages : List Stage)
    (hpos : ∀ s ∈ stages, 0 < s.duration) (hne : stages ≠ []) :
    vuTargetQ start stages 0 = start := by
  cases stages with
  | nil => exact absurd rfl hne
  | cons s rest =>
      have hd : 0 < s.duration := hpos s (List.mem_cons_self s rest)
      simp [vuTargetQ, hd]

theorem vuTargetQ_total (start : ℕ) (stages : List Stage)
    (hpos : ∀ s ∈ stages, 0 < s.duration) (hne : stages ≠ []) :
    vuTargetQ start stages (totalDuration stages) = ((stages.getLast hne).target : ℚ) := by
  induction stages generalizing start with
  | nil => exact absurd rfl hne
  | cons s rest ih =>
      have hrest : ∀ x ∈ rest, 0 < x.duration :=
        fun x hx => hpos x (List.mem_cons_of_mem s hx)
      have hnn : 0 ≤ totalDuration rest := totalDuration_nonneg rest hrest
      have htot : totalDuration (s :: rest) = s.duration + totalDuration rest := by
        simp [totalDuration]
      rw [htot]
      cases rest with
      | nil =>
          simp [vuTargetQ, totalDuration]
      | cons s2 r2 =>
          rw [vuTargetQ, if_neg (by linarith)]
          have harg : s.duration + totalDuration (s2 :: r2) - s.duration =
              totalDuration (s2 :: r2) := by ring
          rw [harg, ih s.target hrest (List.cons_ne_nil s2 r2)]
          rw [List.getLast_cons (List.cons_ne_nil s2 r2)]

/-- Claim C1: inside stage `i` the Schedule Engine's computed VU target is the
linear interpolation between the previous stage's target and stage `i`'s
target, rounded to the nearest integer and clamped to be non-negative; at
time 0 it equals the first stage's starting target and at the total duration
it equals the last stage's target. -/
theorem schedule_vu_target_correct (start : ℕ) (stages : List Stage)
    (hpos : ∀ s ∈ stages, 0 < s.duration) :
    (∀ i, i < stages.length → ∀ t, stageStart stages i ≤ t →
        t < stageStart stages (i + 1) →
        vuTarget start stages t =
          max 0 (round ((prevTarget start stages i : ℚ) +
            ((stageTarget stages i : ℚ) - (prevTarget start stages i : ℚ)) *
              (t - stageStart stages i) / stageDuration stages i))) ∧
    (stages ≠ [] → vuTarget start stages 0 = start) ∧
    (∀ hne : stages ≠ [],
      vuTarget start stages (totalDuration stages) = ((stages.getLast hne).target : ℤ)) := by
  refine ⟨?_, ?_, ?_⟩
  · intro i hi t h1 h2
    rw [vuTarget, vuTargetQ_interp stages start hpos i hi t h1 h2]
  · intro hne
    rw [vuTarget, vuTargetQ_zero start stages hpos hne, round_natCast]
    exact max_eq_right (Int.natCast_nonneg start)
  · intro hne
    rw [vuTarget, vuTargetQ_total start stages hpos hne, round_natCast]
    exact max_eq_right (Int.natCast_nonneg _)

/-- Witness for claim C1 at the spike-test stage list, inside its second
stage (the ramp from 10 to 200 VUs) at t = 35 s. -/
theorem schedule_vu_target_correct_witness :
    ((∀ s ∈ spikeStages, 0 < s.duration) ∧ 1 < spikeStages.length ∧
        stageStart spikeStages 1 ≤ 35 ∧ (35 : ℚ) < stageStart spikeStages 2) ∧
      vuTarget 0 spikeStages 35 =
        max 0 (round ((prevTarget 0 spikeStages 1 : ℚ) +
          ((stageTarget spikeStages 1 : ℚ) - (prevTarget 0 spikeStages 1 : ℚ)) *
            ((35 : ℚ) - stageStart spikeStages 1) / stageDuration spikeStages 1)) :=
  ⟨⟨by norm_num [spikeStages], by decide,
      by norm_num [stageStart, spikeStages], by norm_num [stageStart, spikeStages]⟩,
    (schedule_vu_target_correct 0 spikeStages (by norm_num [spikeStages])).1 1 (by decide) 35
      (by norm_num [stageStart, spikeStages]) (by norm_num [stageStart, spikeStages])⟩

theorem addAll_trues (r : RateReg) (bs : List Bool) :
    (r.addAll bs).trues = r.trues + bs.count true := by
  induction bs generalizing r with
  | nil => simp [RateReg.addAll]
  | cons b bs ih =>
      have step : r.addAll (b :: bs) = (r.add b).addAll bs := rfl
      rw [step, ih]
      cases b <;> simp [RateReg.add, List.count_cons] <;> omega

theorem addAll_total (r : RateReg) (bs : List Bool) :
    (r.addAll bs).total = r.total + bs.length := by
  induction bs generalizing r with
  | nil => simp [RateReg.addAll]
  | cons b bs ih =>
      have step : r.addAll (b :: bs) = (r.add b).addAll bs := rfl
      rw [step, ih]
      simp [RateReg.add]
      omega

theorem count_true_add_count_false (bs : List Bool) :
    bs.count true + bs.count false = bs.length := by
  induction bs with
  | nil => rfl
  | cons b bs ih =>
      cases b <;> (simp [List.count_cons]; omega)

/-- Claim C2: after n add(true) and m add(false) calls with n + m > 0 the
Rate register's rate is n / (n + m); a register with no add calls yields the
undefined value (`none`) rather than crashing. -/
theorem rate_register_correct (bs : List Bool) (n m : ℕ)
    (hn : n = bs.count true) (hm : m = bs.count false) (hpos : 0 < n + m) :
    (RateReg.empty.addAll bs).rate = some ((n : ℚ) / ((n : ℚ) + (m : ℚ))) ∧
      RateReg.empty.rate = none := by
  constructor
  · have hlen : bs.length = n + m := by
      rw [hn, hm]
      exact (count_true_add_count_false bs).symm
    rw [RateReg.rate, addAll_trues, addAll_total]
    simp only [RateReg.empty, Nat.zero_add]
    rw [hlen, ← hn, if_neg (by omega)]
    push_cast
    ring_nf
  · rfl

theorem getD_mem_of_lt (s : List ℚ) (n : ℕ) (h : n < s.length) : s.getD n 0 ∈ s := by
  rw [List.getD_eq_get s 0 h]
  exact List.get_mem s n h

theorem sorted_le_getD_last (s : List ℚ) (hs : s.Sorted (· ≤ ·)) (x : ℚ)
    (hx : x ∈ s) : x ≤ s.getD (s.length - 1) 0 := by
  obtain ⟨i, hi⟩ := List.mem_iff_get.mp hx
  have hn : 0 < s.length := i.pos
  rw [List.getD_eq_get s 0 (by omega), ← hi]
  refine hs.rel_get_of_le ?_
  have := i.isLt
  simp only [Fin.le_def]
  omega

theorem sorted_getD_zero_le (s : List ℚ) (hs : s.Sorted (· ≤ ·)) (x : ℚ)
    (hx : x ∈ s) : s.getD 0 0 ≤ x := by
  obtain ⟨i, hi⟩ := List.mem_iff_get.mp hx
  have hn : 0 < s.length := i.pos
  rw [List.getD_eq_get s 0 hn, ← hi]
  refine hs.rel_get_of_le ?_
  simp [Fin.le_def]

theorem percentileOfSorted_hundred (s : List ℚ) (hne : s ≠ []) :
    percentileOfSorted s 100 = s.getD (s.length - 1) 0 := by
  have hn : 0 < s.length := List.length_pos.mpr hne
  have h100 : (100 : ℚ) / 100 * ((s.length : ℚ) - 1) = (((s.length : ℤ) - 1 : ℤ) : ℚ) := by
    push_cast
    ring
  have htn : ((s.length : ℤ) - 1).toNat = s.length - 1 := by omega
  simp only [percentileOfSorted, h100, Int.floor_intCast, htn]
  rw [if_neg (by omega)]

theorem percentileOfSorted_zero (s : List ℚ) (hne : s ≠ []) :
    percentileOfSorted s 0 = s.getD 0 0 := by
  have hn : 0 < s.length := List.length_pos.mpr hne
  have h0 : (0 : ℚ) / 100 * ((s.length : ℚ) - 1) = (((0 : ℤ) : ℤ) : ℚ) := by norm_num
  simp only [percentileOfSorted, h0, Int.floor_intCast, Int.toNat_zero]
  by_cases h : 0 + 1 < s.length
  · rw [if_pos h]
    simp
  · rw [if_neg h]
    have : s.length - 1 = 0 := by omega
    rw [this]

/-- Claim C3: on a non-empty Trend register the percentile query at 100 is the
maximum sample and at 0 the minimum sample, and a Trend holding k > 0 copies
of the same value v has mean v. -/
theorem trend_percentile_mean_correct (samples : List ℚ) (hne : samples ≠ []) :
    (∃ M, trendPercentile samples 100 = some M ∧ M ∈ samples ∧ ∀ x ∈ samples, x ≤ M) ∧
      (∃ m, trendPercentile samples 0 = some m ∧ m ∈ samples ∧ ∀ x ∈ samples, m ≤ x) ∧
      (∀ v : ℚ, ∀ k : ℕ, 0 < k → trendMean (List.replicate k v) = some v) := by
  have hsorted : (List.insertionSort (· ≤ ·) samples).Sorted (· ≤ ·) :=
    List.sorted_insertionSort _ samples
  have hperm : List.Perm (List.insertionSort (· ≤ ·) samples) samples :=
    List.perm_insertionSort _ samples
  have hsne : List.insertionSort (· ≤ ·) samples ≠ [] := by
    intro h
    rw [h] at hperm
    exact hne (List.Perm.nil_eq hperm).symm
  have hEmpty : ¬(samples.isEmpty = true) := by
    simpa [List.isEmpty_iff] using hne
  refine ⟨?_, ?_, ?_⟩
  · refine ⟨(List.insertionSort (· ≤ ·) samples).getD
        ((List.insertionSort (· ≤ ·) samples).length - 1) 0, ?_, ?_, ?_⟩
    · rw [trendPercentile, if_neg hEmpty, percentileOfSorted_hundred _ hsne]
    · exact hperm.mem_iff.mp
        (getD_mem_of_lt _ _ (by have := List.length_pos.mpr hsne; omega))
    · intro x hx
      exact sorted_le_getD_last _ hsorted x (hperm.mem_iff.mpr hx)
  · refine ⟨(List.insertionSort (· ≤ ·) samples).getD 0 0, ?_, ?_, ?_⟩
    · rw [trendPercentile, if_neg hEmpty, percentileOfSorted_zero _ hsne]
    · exact hperm.mem_iff.mp (getD_mem_of_lt _ _ (List.length_pos.mpr hsne))
    · intro x hx
      exact sorted_getD_zero_le _ hsorted x (hperm.mem_iff.mpr hx)
  · intro v k hk
    have hkne : ¬((List.replicate k v).isEmpty = true) := by
      simp [List.isEmpty_iff, List.replicate_eq_nil]
      omega
    rw [trendMean, if_neg hkne]
    simp only [List.sum_replicate, List.length_replicate, nsmul_eq_mul]
    rw [mul_div_cancel_left₀ v (by positivity)]

/-- Witness for claim C3 on the samples [3, 1, 2]. -/
theorem trend_percentile_mean_correct_witness :
    ([(3 : ℚ), 1, 2] ≠ []) ∧
      ((∃ M, trendPercentile [(3 : ℚ), 1, 2] 100 = some M ∧ M ∈ [(3 : ℚ), 1, 2] ∧
            ∀ x ∈ [(3 : ℚ), 1, 2], x ≤ M) ∧
        (∃ m, trendPercentile [(3 : ℚ), 1, 2] 0 = some m ∧ m ∈ [(3 : ℚ), 1, 2] ∧
            ∀ x ∈ [(3 : ℚ), 1, 2], m ≤ x) ∧
        (∀ v : ℚ, ∀ k : ℕ, 0 < k → trendMean (List.replicate k v) = some v)) :=
  ⟨by simp, trend_percentile_mean_correct [(3 : ℚ), 1, 2] (by simp)⟩

/-- Claim C4: the threshold p(95)<500 passes iff the Trend's 95th percentile
is strictly below 500; a percentile of exactly 500 fails it. -/
theorem threshold_p95_strict (samples : List ℚ) (hne : samples ≠ []) :
    ∃ v, trendPercentile samples 95 = some v ∧
      (thresholdP95lt500 samples = some true ↔ v < 500) ∧
      (v = 500 → thresholdP95lt500 samples = some false) := by
  have hEmpty : ¬(samples.isEmpty = true) := by
    simpa [List.isEmpty_iff] using hne
  refine ⟨percentileOfSorted (List.insertionSort (· ≤ ·) samples) 95, ?_, ?_, ?_⟩
  · rw [trendPercentile, if_neg hEmpty]
  · rw [thresholdP95lt500, trendPercentile, if_neg hEmpty]
    simp [CmpOp.holds]
  · intro hv
    rw [thresholdP95lt500, trendPercentile, if_neg hEmpty]
    simp [CmpOp.holds, hv]

/-- Witness for claim C4 on a register whose only sample (hence whose 95th
percentile) is exactly 500. -/
theorem threshold_p95_strict_witness :
    ([(500 : ℚ)] ≠ []) ∧
      ∃ v, trendPercentile [(500 : ℚ)] 95 = some v ∧
        (thresholdP95lt500 [(500 : ℚ)] = some true ↔ v < 500) ∧
        (v = 500 → thresholdP95lt500 [(500 : ℚ)] = some false) :=
  ⟨by simp, threshold_p95_strict [(500 : ℚ)] (by simp)⟩

/-- Witness for claim C2 with two add(true) calls and one add(false) call. -/
theorem rate_register_correct_witness :
    (2 = [true, false, true].count true ∧ 1 = [true, false, true].count false ∧
        0 < 2 + 1) ∧
      ((RateReg.empty.addAll [true, false, true]).rate =
          some ((2 : ℚ) / ((2 : ℚ) + (1 : ℚ))) ∧
        RateReg.empty.rate = none) :=
  ⟨⟨by decide, by decide, by decide⟩,
    rate_register_correct [true, false, true] 2 1 (by decide) (by decide) (by decide)⟩

/-- Claim C5: the overall verdict is PASS iff every threshold's computed
aggregate satisfies its comparison; with the script resolved and Docker up
the runner's exit status is 0 exactly on PASS, and with Docker unavailable
the exit status is non-zero and no load is generated. -/
theorem verdict_and_exit_status (ts : List ThresholdCheck) (files : List String)
    (name : String) (hfile : (name ++ ".js") ∈ files) :
    (overallVerdict ts = true ↔ ∀ tc ∈ ts, tc.passes = true) ∧
      ((runRunner files name true (k6ExitStatus ts)).exitCode = 0 ↔
        overallVerdict ts = true) ∧
      ((runRunner files name false (k6ExitStatus ts)).exitCode ≠ 0 ∧
        (runRunner files name false (k6ExitStatus ts)).k6Invoked = false) := by
  refine ⟨?_, ?_, ?_⟩
  · simp [overallVerdict, List.all_eq_true]
  · simp only [runRunner, if_pos hfile, if_true, k6ExitStatus]
    by_cases h : overallVerdict ts <;> simp [h]
  · simp [runRunner, if_pos hfile]

/-- Witness for claim C5 with one passing threshold (123 < 500) over the
repository's script files. -/
theorem verdict_and_exit_status_witness :
    (("spike-test" ++ ".js") ∈ ["spike-test.js", "soak-test.js", "profiling-test.js"]) ∧
      ((overallVerdict [⟨CmpOp.lt, 500, 123⟩] = true ↔
          ∀ tc ∈ [ThresholdCheck.mk CmpOp.lt 500 123], tc.passes = true) ∧
        ((runRunner ["spike-test.js", "soak-test.js", "profiling-test.js"] "spike-test"
            true (k6ExitStatus [⟨CmpOp.lt, 500, 123⟩])).exitCode = 0 ↔
          overallVerdict [⟨CmpOp.lt, 500, 123⟩] = true) ∧
        ((runRunner ["spike-test.js", "soak-test.js", "profiling-test.js"] "spike-test"
            false (k6ExitStatus [⟨CmpOp.lt, 500, 123⟩])).exitCode ≠ 0 ∧
          (runRunner ["spike-test.js", "soak-test.js", "profiling-test.js"] "spike-test"
            false (k6ExitStatus [⟨CmpOp.lt, 500, 123⟩])).k6Invoked = false)) :=
  ⟨by decide,
    verdict_and_exit_status [⟨CmpOp.lt, 500, 123⟩]
      ["spike-test.js", "soak-test.js", "profiling-test.js"] "spike-test" (by decide)⟩

/-- Claim C6: a test name whose script does not resolve makes the runner exit
with status 1, print the registry of known test names, and never invoke the
k6 load generator. -/
theorem unknown_test_rejected (files : List String) (name : String)
    (dockerUp : Bool) (k6Code : ℕ) (h : (name ++ ".js") ∉ files) :
    (runRunner files name dockerUp k6Code).exitCode = 1 ∧
      (runRunner files name dockerUp k6Code).notFoundListed = knownTests ∧
      (runRunner files name dockerUp k6Code).k6Invoked = false := by
  simp [runRunner, if_neg h]

/-- Witness for claim C6: asking for stress-test when only the three shipped
scripts exist. -/
theorem unknown_test_rejected_witness :
    (("stress-test" ++ ".js") ∉ ["spike-test.js", "soak-test.js", "profiling-test.js"]) ∧
      ((runRunner ["spike-test.js", "soak-test.js", "profiling-test.js"] "stress-test"
          true 0).exitCode = 1 ∧
        (runRunner ["spike-test.js", "soak-test.js", "profiling-test.js"] "stress-test"
          true 0).notFoundListed = knownTests ∧
        (runRunner ["spike-test.js", "soak-test.js", "profiling-test.js"] "stress-test"
          true 0).k6Invoked = false) :=
  ⟨by decide,
    unknown_test_rejected ["spike-test.js", "soak-test.js", "profiling-test.js"]
      "stress-test" true 0 (by decide)⟩

theorem allScenarioURLs_extend (base : String) (uid : ℕ) :
    ∀ u ∈ allScenarioURLs base uid, ∃ path, u = base ++ path := by
  intro u hu
  simp only [allScenarioURLs, spikeTestURLs, soakTestURLs, profilingTestURLs,
    basicLoadURLs, stressTestURLs, errorTestURLs, List.cons_append,
    List.nil_append] at hu
  fin_cases hu <;>
    first
      | exact ⟨_, rfl⟩
      | exact ⟨_, String.append_assoc _ _ _⟩

/-- Claim C7: when BASE_URL is supplied (non-empty) it replaces the declared
default and every request URL of every scenario extends it; when it is not
supplied every request URL extends the default http://rust-app:8080. -/
theorem base_url_override (s : String) (hs : s ≠ "") (uid : ℕ) :
    resolveBaseURL (some s) = s ∧
      resolveBaseURL none = "http://rust-app:8080" ∧
      (∀ u ∈ allScenarioURLs (resolveBaseURL (some s)) uid, ∃ path, u = s ++ path) ∧
      (∀ u ∈ allScenarioURLs (resolveBaseURL none) uid,
        ∃ path, u = "http://rust-app:8080" ++ path) := by
  have hres : resolveBaseURL (some s) = s := by simp [resolveBaseURL, hs]
  refine ⟨hres, rfl, ?_, ?_⟩
  · rw [hres]
    exact allScenarioURLs_extend s uid
  · exact allScenarioURLs_extend "http://rust-app:8080" uid

/-- Witness for claim C7 with a supplied base URL and user id 7. -/
theorem base_url_override_witness :
    ("http://localhost:9999" ≠ "") ∧
      (resolveBaseURL (some "http://localhost:9999") = "http://localhost:9999" ∧
        resolveBaseURL none = "http://rust-app:8080" ∧
        (∀ u ∈ allScenarioURLs (resolveBaseURL (some "http://localhost:9999")) 7,
          ∃ path, u = "http://localhost:9999" ++ path) ∧
        (∀ u ∈ allScenarioURLs (resolveBaseURL none) 7,
          ∃ path, u = "http://rust-app:8080" ++ path)) :=
  ⟨by decide, base_url_override "http://localhost:9999" (by decide) 7⟩

/-- Claim C8: every basic-load iteration, whatever the response (network
failure or non-2xx included), appends the duration sample, bumps the request
counter, tallies exactly one error-rate observation (true exactly on check
failure) and still sleeps between 0.5 and 2.5 seconds: a failing check never
aborts the iteration. -/
theorem checks_never_abort (m : BasicLoadMetrics) (r : HttpResponse) (dur : ℚ)
    (rand : ℚ) (h0 : 0 ≤ rand) (h1 : rand < 1) :
    (basicLoadIteration m r dur rand).1.requestDuration = m.requestDuration ++ [dur] ∧
      (basicLoadIteration m r dur rand).1.requests = m.requests + 1 ∧
      (basicLoadIteration m r dur rand).1.errors = m.errors.add (!basicLoadSuccess r) ∧
      (1 / 2 : ℚ) ≤ (basicLoadIteration m r dur rand).2 ∧
      (basicLoadIteration m r dur rand).2 < 5 / 2 := by
  by_cases h : basicLoadSuccess r = true
  · refine ⟨by simp [basicLoadIteration, h], by simp [basicLoadIteration, h],
      by simp [basicLoadIteration, h], ?_, ?_⟩
    · simp only [basicLoadIteration]
      linarith
    · simp only [basicLoadIteration]
      linarith
  · refine ⟨by simp [basicLoadIteration, h], by simp [basicLoadIteration, h],
      by simp [basicLoadIteration, h], ?_, ?_⟩
    · simp only [basicLoadIteration]
      linarith
    · simp only [basicLoadIteration]
      linarith

/-- Witness for claim C8 on a failing response (status 500, empty body). -/
theorem checks_never_abort_witness :
    ((0 : ℚ) ≤ 0 ∧ (0 : ℚ) < 1) ∧
      ((basicLoadIteration ⟨[], 0, RateReg.empty⟩ ⟨500, ""⟩ 7 0).1.requestDuration =
          [] ++ [(7 : ℚ)] ∧
        (basicLoadIteration ⟨[], 0, RateReg.empty⟩ ⟨500, ""⟩ 7 0).1.requests = 0 + 1 ∧
        (basicLoadIteration ⟨[], 0, RateReg.empty⟩ ⟨500, ""⟩ 7 0).1.errors =
          RateReg.empty.add (!basicLoadSuccess ⟨500, ""⟩) ∧
        (1 / 2 : ℚ) ≤ (basicLoadIteration ⟨[], 0, RateReg.empty⟩ ⟨500, ""⟩ 7 0).2 ∧
        (basicLoadIteration ⟨[], 0, RateReg.empty⟩ ⟨500, ""⟩ 7 0).2 < 5 / 2) :=
  ⟨⟨by norm_num, by norm_num⟩,
    checks_never_abort ⟨[], 0, RateReg.empty⟩ ⟨500, ""⟩ 7 0 (by norm_num) (by norm_num)⟩

/-- Claim C9: the divide request's divisor b is always an integer between 1
and 10 inclusive, so a zero divisor is never sent. -/
theorem divide_divisor_range (rand : ℚ) (h0 : 0 ≤ rand) (h1 : rand < 1) :
    1 ≤ divideDivisor rand ∧ divideDivisor rand ≤ 10 ∧ divideDivisor rand ≠ 0 := by
  have hf0 : 0 ≤ ⌊rand * 10⌋ := Int.floor_nonneg.mpr (by positivity)
  have hf9 : ⌊rand * 10⌋ < 10 := by
    rw [Int.floor_lt]
    push_cast
    linarith
  unfold divideDivisor
  omega

/-- Witness for claim C9 at the largest drawn random value 99/100. -/
theorem divide_divisor_range_witness :
    ((0 : ℚ) ≤ 99 / 100 ∧ (99 / 100 : ℚ) < 1) ∧
      (1 ≤ divideDivisor (99 / 100) ∧ divideDivisor (99 / 100) ≤ 10 ∧
        divideDivisor (99 / 100) ≠ 0) :=
  ⟨⟨by norm_num, by norm_num⟩, divide_divisor_range (99 / 100) (by norm_num) (by norm_num)⟩

/-- Claim C10: the intentional_errors Counter is incremented by exactly 1 in
precisely the iterations whose drawn request has shouldError true (indices 2
and 3 of the request list), independent of the HTTP response. -/
theorem intentional_errors_counts_selection (base : String) (idx : ℕ)
    (r : HttpResponse) (hidx : idx < 4) :
    ((errorTestIteration base idx r).1 =
        if ((errorTestRequests base).getD idx ⟨"", false, false⟩).shouldError then 1
        else 0) ∧
      (((errorTestRequests base).getD idx ⟨"", false, false⟩).shouldError = true ↔
        (idx = 2 ∨ idx = 3)) ∧
      (∀ r2 : HttpResponse,
        (errorTestIteration base idx r).1 = (errorTestIteration base idx r2).1) := by
  interval_cases idx <;> simp [errorTestIteration, errorTestRequests]

/-- Witness for claim C10 at the divide-by-zero request (index 2) with a 200
response: the counter still ticks. -/
theorem intentional_errors_counts_selection_witness :
    (2 < 4) ∧
      (((errorTestIteration "http://rust-app:8080" 2 ⟨200, "ok"⟩).1 =
          if ((errorTestRequests "http://rust-app:8080").getD 2
              ⟨"", false, false⟩).shouldError then 1 else 0) ∧
        (((errorTestRequests "http://rust-app:8080").getD 2
            ⟨"", false, false⟩).shouldError = true ↔ (2 = 2 ∨ 2 = 3)) ∧
        (∀ r2 : HttpResponse,
          (errorTestIteration "http://rust-app:8080" 2 ⟨200, "ok"⟩).1 =
            (errorTestIteration "http://rust-app:8080" 2 r2).1)) :=
  ⟨by decide,
    intentional_errors_counts_selection "http://rust-app:8080" 2 ⟨200, "ok"⟩ (by decide)⟩
